import Mathlib

/-!
# x64asm environment register bits (`src/env_bits.h`)

A shallow embedding of `x64asm::EnvBits`, of its five register-kind variants
(`Eflags`, `FpuControl`, `FpuStatus`, `FpuTag`, `Mxcsr`) and of the `std`
specialisations declared in the same header, followed by theorems about
comparison, hashing, swapping, construction and textual input and output.

`EnvBits` privately derives from `std::pair<size_t, size_t>`; its state is the
two inherited members `first` and `second`.  A `size_t` is modelled as a natural
number (the values below `2 ^ 64`).  The operations embedded here only compare,
copy and xor the two members, so none of them can wrap; every universally
quantified theorem below holds for all naturals and hence for all `size_t`
values.
-/

namespace x64asm

/-- An environment register bit: the members `first` and `second` inherited from
`std::pair<size_t, size_t>`. -/
structure EnvBits where
  first : Nat
  second : Nat
deriving DecidableEq, Repr

/-- The protected constructor `EnvBits(size_t i, size_t w) : std::pair<size_t, size_t>(i, w)`. -/
def EnvBits.ctor (i w : Nat) : EnvBits :=
  { first := i, second := w }

/-- The accessor `index()`: returns `this->first`. -/
def EnvBits.index (self : EnvBits) : Nat :=
  self.first

/-- The accessor `width()`: returns `this->second`. -/
def EnvBits.width (self : EnvBits) : Nat :=
  self.second

/-- The member `operator==`:
`this->first == rhs.first && this->second == rhs.second`. -/
def EnvBits.eq (self rhs : EnvBits) : Bool :=
  self.first == rhs.first && self.second == rhs.second

/-- The member `operator!=`: `!(*this == rhs)`. -/
def EnvBits.ne (self rhs : EnvBits) : Bool :=
  !(EnvBits.eq self rhs)

/-- The member `operator<`:
`(this->first < rhs.first) ? true : (this->first == rhs.first) ? false : this->second < rhs.second`. -/
def EnvBits.lt (self rhs : EnvBits) : Bool :=
  if self.first < rhs.first then true
  else if self.first == rhs.first then false
  else decide (self.second < rhs.second)

/-- The member `hash()`: `this->first ^ this->second` (bitwise exclusive or). -/
def EnvBits.hash (self : EnvBits) : Nat :=
  self.first ^^^ self.second

/-- The member `swap(EnvBits& rhs)`, which calls `std::pair<size_t, size_t>::swap(rhs)`:
`first` is exchanged with `rhs.first` and `second` with `rhs.second`.  Both
objects are mutated, so the embedding returns the new `*this` and the new `rhs`. -/
def EnvBits.swap (self rhs : EnvBits) : EnvBits × EnvBits :=
  ({ first := rhs.first, second := rhs.second },
   { first := self.first, second := self.second })

/-- An EFLAGS register bit: `class Eflags : public EnvBits`. -/
structure Eflags extends EnvBits
deriving DecidableEq, Repr

/-- An FPU control register bit: `class FpuControl : public EnvBits`. -/
structure FpuControl extends EnvBits
deriving DecidableEq, Repr

/-- An FPU status register bit: `class FpuStatus : public EnvBits`. -/
structure FpuStatus extends EnvBits
deriving DecidableEq, Repr

/-- An FPU tag register: `class FpuTag : public EnvBits`. -/
structure FpuTag extends EnvBits
deriving DecidableEq, Repr

/-- An MXCSR register bit: `class Mxcsr : public EnvBits`. -/
structure Mxcsr extends EnvBits
deriving DecidableEq, Repr

/-- The private constructor `Eflags(size_t i, size_t w) : EnvBits(i, w)`. -/
def Eflags.ctor (i w : Nat) : Eflags :=
  { toEnvBits := EnvBits.ctor i w }

/-- The private constructor `FpuControl(size_t i, size_t w) : EnvBits(i, w)`. -/
def FpuControl.ctor (i w : Nat) : FpuControl :=
  { toEnvBits := EnvBits.ctor i w }

/-- The private constructor `FpuStatus(size_t i, size_t w) : EnvBits(i, w)`. -/
def FpuStatus.ctor (i w : Nat) : FpuStatus :=
  { toEnvBits := EnvBits.ctor i w }

/-- The private constructor `FpuTag(size_t i, size_t w) : EnvBits(i, w)`. -/
def FpuTag.ctor (i w : Nat) : FpuTag :=
  { toEnvBits := EnvBits.ctor i w }

/-- The private constructor `Mxcsr(size_t i, size_t w) : EnvBits(i, w)`. -/
def Mxcsr.ctor (i w : Nat) : Mxcsr :=
  { toEnvBits := EnvBits.ctor i w }

/-- The specification's ordering, written from its words and not from the code:
`(a.index(), a.width())` is lexicographically less than `(b.index(), b.width())`,
that is `a.index() < b.index()`, or `a.index() == b.index()` and
`a.width() < b.width()`. -/
def EnvBits.specLexLess (a b : EnvBits) : Bool :=
  decide (a.index < b.index ∨ (a.index = b.index ∧ a.width < b.width))

end x64asm

namespace std

/-- The specialisation `std::hash<x64asm::EnvBits>::operator()`: returns `e.hash()`. -/
def hash (e : x64asm.EnvBits) : Nat :=
  x64asm.EnvBits.hash e

/-- The overload `std::swap(x64asm::EnvBits& e1, x64asm::EnvBits& e2)`: calls `e1.swap(e2)`;
returns the new `e1` and the new `e2`. -/
def swap (e1 e2 : x64asm.EnvBits) : x64asm.EnvBits × x64asm.EnvBits :=
  x64asm.EnvBits.swap e1 e2

end std

/-! ## Textual input and output

The header only declares `read_text` and `write_text`; their bodies, the
catalog class `Constants` and the streams they work on are not part of the
header.  The definitions of this section follow the specification's description
of them. -/

namespace std

/-- Modelled from the spec: the input stream given to `read_text` (`std::istream`,
whose definition is not among the sources), as the tokens still to be consumed
and the stream's failure signal. -/
structure istream where
  tokens : List String
  failed : Bool
deriving DecidableEq, Repr

/-- Modelled from the spec: the output stream given to `write_text` (`std::ostream`,
whose definition is not among the sources), as the tokens written so far and the
stream's failure signal. -/
structure ostream where
  written : List String
  failed : Bool
deriving DecidableEq, Repr

end std

namespace x64asm

/-- Modelled from the spec: the catalog (`class Constants`, the friend of every
variant, not among the sources): for each register kind the fixed enumeration of
its valid fields, each with its canonical name. -/
structure Constants where
  eflags : List (String × Eflags)
  fpu_control : List (String × FpuControl)
  fpu_status : List (String × FpuStatus)
  fpu_tag : List (String × FpuTag)
  mxcsr : List (String × Mxcsr)

/-- Modelled from the spec: the field a token names in a vocabulary, if any (the
token-to-field half of the textual mapping used by `read_text`, whose body is
not among the sources). -/
def fieldOfName {α : Type} : List (String × α) → String → Option α
  | [], _ => none
  | (n, f) :: rest, t => if t = n then some f else fieldOfName rest t

/-- Modelled from the spec: the canonical name of a bit-field value in a
vocabulary, if any (the field-to-token half of the textual mapping used by
`write_text`, whose body is not among the sources). -/
def nameOfField {α : Type} (bits : α → EnvBits) : List (String × α) → EnvBits → Option String
  | [], _ => none
  | (n, f) :: rest, x => if EnvBits.eq x (bits f) then some n else nameOfField bits rest x

/-- Modelled from the spec: `read_text` over a given vocabulary (the bodies of the
five `read_text` members are not among the sources).  It consumes one token; if
the token names a field of the vocabulary the instance becomes that field,
otherwise the instance is left unchanged and the stream is marked failed, its
position past the token.  A stream that has already failed, or has no token
left, yields nothing. -/
def read_text_with {α : Type} (vocab : List (String × α)) (self : α) (is : std.istream) :
    α × std.istream :=
  if is.failed then (self, is)
  else
    match is.tokens with
    | [] => (self, { tokens := [], failed := true })
    | t :: rest =>
      match fieldOfName vocab t with
      | some f => (f, { tokens := rest, failed := false })
      | none => (self, { tokens := rest, failed := true })

/-- Modelled from the spec: `write_text` over a given vocabulary (the bodies of
the five `write_text` members are not among the sources).  It writes the
canonical name of the instance's current bit-field; if the bit-field matches no
field of the vocabulary it writes nothing and marks the stream failed. -/
def write_text_with {α : Type} (bits : α → EnvBits) (vocab : List (String × α)) (self : α)
    (os : std.ostream) : std.ostream :=
  if os.failed then os
  else
    match nameOfField bits vocab (bits self) with
    | some n => { written := os.written ++ [n], failed := false }
    | none => { written := os.written, failed := true }

/-- Modelled from the spec: `Eflags::read_text` (declared in the header, body not
among the sources), reading over the catalog's EFLAGS vocabulary. -/
def Eflags.read_text (c : Constants) (self : Eflags) (is : std.istream) : Eflags × std.istream :=
  read_text_with c.eflags self is

/-- Modelled from the spec: `Eflags::write_text` (declared in the header, body not
among the sources), writing over the catalog's EFLAGS vocabulary. -/
def Eflags.write_text (c : Constants) (self : Eflags) (os : std.ostream) : std.ostream :=
  write_text_with Eflags.toEnvBits c.eflags self os

/-- Modelled from the spec: `FpuControl::read_text` (declared in the header, body
not among the sources), reading over the catalog's FPU control vocabulary. -/
def FpuControl.read_text (c : Constants) (self : FpuControl) (is : std.istream) :
    FpuControl × std.istream :=
  read_text_with c.fpu_control self is

/-- Modelled from the spec: `FpuControl::write_text` (declared in the header, body
not among the sources), writing over the catalog's FPU control vocabulary. -/
def FpuControl.write_text (c : Constants) (self : FpuControl) (os : std.ostream) : std.ostream :=
  write_text_with FpuControl.toEnvBits c.fpu_control self os

/-- Modelled from the spec: `FpuStatus::read_text` (declared in the header, body
not among the sources), reading over the catalog's FPU status vocabulary. -/
def FpuStatus.read_text (c : Constants) (self : FpuStatus) (is : std.istream) :
    FpuStatus × std.istream :=
  read_text_with c.fpu_status self is

/-- Modelled from the spec: `FpuStatus::write_text` (declared in the header, body
not among the sources), writing over the catalog's FPU status vocabulary. -/
def FpuStatus.write_text (c : Constants) (self : FpuStatus) (os : std.ostream) : std.ostream :=
  write_text_with FpuStatus.toEnvBits c.fpu_status self os

/-- Modelled from the spec: `FpuTag::read_text` (declared in the header, body not
among the sources), reading over the catalog's FPU tag vocabulary. -/
def FpuTag.read_text (c : Constants) (self : FpuTag) (is : std.istream) : FpuTag × std.istream :=
  read_text_with c.fpu_tag self is

/-- Modelled from the spec: `FpuTag::write_text` (declared in the header, body not
among the sources), writing over the catalog's FPU tag vocabulary. -/
def FpuTag.write_text (c : Constants) (self : FpuTag) (os : std.ostream) : std.ostream :=
  write_text_with FpuTag.toEnvBits c.fpu_tag self os

/-- Modelled from the spec: `Mxcsr::read_text` (declared in the header, body not
among the sources), reading over the catalog's MXCSR vocabulary. -/
def Mxcsr.read_text (c : Constants) (self : Mxcsr) (is : std.istream) : Mxcsr × std.istream :=
  read_text_with c.mxcsr self is

/-- Modelled from the spec: `Mxcsr::write_text` (declared in the header, body not
among the sources), writing over the catalog's MXCSR vocabulary. -/
def Mxcsr.write_text (c : Constants) (self : Mxcsr) (os : std.ostream) : std.ostream :=
  write_text_with Mxcsr.toEnvBits c.mxcsr self os

end x64asm

namespace std

/-- The overload `operator>>(istream& is, x64asm::Eflags& e)`: returns `e.read_text(is)`;
the embedding returns the new `e` with the stream. -/
def extract_Eflags (c : x64asm.Constants) (is : istream) (e : x64asm.Eflags) :
    x64asm.Eflags × istream :=
  x64asm.Eflags.read_text c e is

/-- The overload `operator<<(ostream& os, const x64asm::Eflags& e)`: returns `e.write_text(os)`. -/
def insert_Eflags (c : x64asm.Constants) (os : ostream) (e : x64asm.Eflags) : ostream :=
  x64asm.Eflags.write_text c e os

/-- The overload `operator>>(istream& is, x64asm::FpuControl& f)`: returns `f.read_text(is)`;
the embedding returns the new `f` with the stream. -/
def extract_FpuControl (c : x64asm.Constants) (is : istream) (f : x64asm.FpuControl) :
    x64asm.FpuControl × istream :=
  x64asm.FpuControl.read_text c f is

/-- The overload `operator<<(ostream& os, const x64asm::FpuControl& f)`: returns `f.write_text(os)`. -/
def insert_FpuControl (c : x64asm.Constants) (os : ostream) (f : x64asm.FpuControl) : ostream :=
  x64asm.FpuControl.write_text c f os

/-- The overload `operator>>(istream& is, x64asm::FpuStatus& s)`: returns `s.read_text(is)`;
the embedding returns the new `s` with the stream. -/
def extract_FpuStatus (c : x64asm.Constants) (is : istream) (s : x64asm.FpuStatus) :
    x64asm.FpuStatus × istream :=
  x64asm.FpuStatus.read_text c s is

/-- The overload `operator<<(ostream& os, const x64asm::FpuStatus& s)`: returns `s.write_text(os)`. -/
def insert_FpuStatus (c : x64asm.Constants) (os : ostream) (s : x64asm.FpuStatus) : ostream :=
  x64asm.FpuStatus.write_text c s os

/-- The overload `operator>>(istream& is, x64asm::FpuTag& t)`: returns `t.read_text(is)`;
the embedding returns the new `t` with the stream. -/
def extract_FpuTag (c : x64asm.Constants) (is : istream) (t : x64asm.FpuTag) :
    x64asm.FpuTag × istream :=
  x64asm.FpuTag.read_text c t is

/-- The overload `operator<<(ostream& os, const x64asm::FpuTag& t)`: returns `t.write_text(os)`. -/
def insert_FpuTag (c : x64asm.Constants) (os : ostream) (t : x64asm.FpuTag) : ostream :=
  x64asm.FpuTag.write_text c t os

/-- The overload `operator>>(istream& is, x64asm::Mxcsr& m)`: returns `m.read_text(is)`;
the embedding returns the new `m` with the stream. -/
def extract_Mxcsr (c : x64asm.Constants) (is : istream) (m : x64asm.Mxcsr) :
    x64asm.Mxcsr × istream :=
  x64asm.Mxcsr.read_text c m is

/-- The overload `operator<<(ostream& os, const x64asm::Mxcsr& m)`: returns `m.write_text(os)`. -/
def insert_Mxcsr (c : x64asm.Constants) (os : ostream) (m : x64asm.Mxcsr) : ostream :=
  x64asm.Mxcsr.write_text c m os

end std

namespace x64asm

/-- Modelled from the spec: the guarantee the (absent) catalog gives for one
vocabulary, a bijective mapping between canonical tokens and `(index, width)`
pairs: no two entries share a name and no two entries share a bit-field. -/
def bijective {α : Type} (bits : α → EnvBits) (vocab : List (String × α)) : Prop :=
  (vocab.map Prod.fst).Nodup ∧ (vocab.map (fun e => bits e.2)).Nodup

/-- Modelled from the spec: the same guarantee for the whole (absent) catalog
`Constants`, one bijective vocabulary per register kind. -/
def Constants.bijective (c : Constants) : Prop :=
  x64asm.bijective Eflags.toEnvBits c.eflags ∧
  x64asm.bijective FpuControl.toEnvBits c.fpu_control ∧
  x64asm.bijective FpuStatus.toEnvBits c.fpu_status ∧
  x64asm.bijective FpuTag.toEnvBits c.fpu_tag ∧
  x64asm.bijective Mxcsr.toEnvBits c.mxcsr

/-- The round-trip law for one variant with reader `read`, writer `write` and
vocabulary `vocab`.  For every catalog field `f` with canonical name `n` and
every instance `fresh`: writing `f` to an empty stream succeeds; reading what was
written into `fresh` succeeds and gives an instance equal (`operator==`) to `f`;
and reading the name `n` into `fresh` succeeds and writing the result gives back
exactly `n`. -/
def RoundTrip {α : Type} (read : α → std.istream → α × std.istream)
    (write : α → std.ostream → std.ostream) (bits : α → EnvBits)
    (vocab : List (String × α)) : Prop :=
  ∀ (n : String) (f : α), (n, f) ∈ vocab → ∀ fresh : α,
    (write f { written := [], failed := false }).failed = false ∧
    (read fresh { tokens := (write f { written := [], failed := false }).written,
                  failed := false }).2.failed = false ∧
    EnvBits.eq
      (bits (read fresh { tokens := (write f { written := [], failed := false }).written,
                          failed := false }).1)
      (bits f) = true ∧
    (read fresh { tokens := [n], failed := false }).2.failed = false ∧
    write (read fresh { tokens := [n], failed := false }).1 { written := [], failed := false }
      = { written := [n], failed := false }

/-- Atomic rejection for one variant with reader `read` and vocabulary `vocab`.
For every token `t` that is the name of no entry, every instance and every
stream whose next token is `t`: after reading, the stream is in its failure
state and the instance has the index and the width it had before. -/
def RejectsUnknown {α : Type} (read : α → std.istream → α × std.istream)
    (bits : α → EnvBits) (vocab : List (String × α)) : Prop :=
  ∀ t : String, (∀ e ∈ vocab, e.1 ≠ t) →
    ∀ (self : α) (rest : List String) (fl : Bool),
      (read self { tokens := t :: rest, failed := fl }).2.failed = true ∧
      EnvBits.index (bits (read self { tokens := t :: rest, failed := fl }).1)
        = EnvBits.index (bits self) ∧
      EnvBits.width (bits (read self { tokens := t :: rest, failed := fl }).1)
        = EnvBits.width (bits self)

/-- Modelled from the spec: a small catalog of the shape the spec describes (the
EFLAGS carry flag at index 0 and width 1, two-bit FPU tags), on which the
textual operations can be evaluated; the full vocabulary belongs to the absent
`Constants`. -/
def sampleConstants : Constants :=
  { eflags := [("cf", Eflags.ctor 0 1), ("pf", Eflags.ctor 2 1), ("zf", Eflags.ctor 6 1)],
    fpu_control := [("pc", FpuControl.ctor 8 2), ("rc", FpuControl.ctor 10 2)],
    fpu_status := [("c0", FpuStatus.ctor 8 1), ("top", FpuStatus.ctor 11 3)],
    fpu_tag := [("tag0", FpuTag.ctor 0 2), ("tag1", FpuTag.ctor 2 2)],
    mxcsr := [("rc", Mxcsr.ctor 13 2), ("fz", Mxcsr.ctor 15 1)] }

end x64asm

namespace x64asm

/-! ## Shared lemmas -/

/-- What `operator<` computes: it holds when the left index is smaller, or when
the left index is larger and the left width is smaller; it never holds between
values of equal index. -/
theorem EnvBits.lt_eq_true_iff (a b : EnvBits) :
    EnvBits.lt a b = true ↔
      a.first < b.first ∨ (b.first < a.first ∧ a.second < b.second) := by
  unfold EnvBits.lt
  by_cases h1 : a.first < b.first
  · simp [h1]
  · by_cases h2 : a.first = b.first
    · simp [h2]
    · have h3 : b.first < a.first := by omega
      simp [h1, h2, h3]

/-- What `operator==` computes, in terms of the two members. -/
theorem EnvBits.eq_eq_true_iff (a b : EnvBits) :
    EnvBits.eq a b = true ↔ a.first = b.first ∧ a.second = b.second := by
  simp [EnvBits.eq]

/-! ## Ordering -/

/-- C1. `operator<` is not the lexicographic order on `(index(), width())`:
`(0, 1) < (0, 2)` is false in the code although the pair `(0, 1)` is
lexicographically below `(0, 2)`, and `(14, 1) < (12, 2)` is true in the code
although `(14, 1)` is lexicographically above `(12, 2)`. -/
theorem lt_differs_from_lexicographic :
    EnvBits.lt (EnvBits.ctor 0 1) (EnvBits.ctor 0 2) = false ∧
    EnvBits.specLexLess (EnvBits.ctor 0 1) (EnvBits.ctor 0 2) = true ∧
    EnvBits.lt (EnvBits.ctor 14 1) (EnvBits.ctor 12 2) = true ∧
    EnvBits.specLexLess (EnvBits.ctor 14 1) (EnvBits.ctor 12 2) = false := by
  decide

/-- C2. `operator<` is not total with respect to `operator==`: the values
`(0, 1)` and `(0, 2)` are unequal (`!=` is true, `==` is false), yet neither is
less than the other. -/
theorem lt_not_total_same_index :
    EnvBits.ne (EnvBits.ctor 0 1) (EnvBits.ctor 0 2) = true ∧
    EnvBits.eq (EnvBits.ctor 0 1) (EnvBits.ctor 0 2) = false ∧
    EnvBits.lt (EnvBits.ctor 0 1) (EnvBits.ctor 0 2) = false ∧
    EnvBits.lt (EnvBits.ctor 0 2) (EnvBits.ctor 0 1) = false := by
  decide

/-- C3. `operator<` is not asymmetric: for `a = (12, 2)` and `b = (14, 1)` both
`a < b` and `b < a` are true. -/
theorem lt_both_directions :
    EnvBits.lt (EnvBits.ctor 12 2) (EnvBits.ctor 14 1) = true ∧
    EnvBits.lt (EnvBits.ctor 14 1) (EnvBits.ctor 12 2) = true := by
  decide

/-- C4. `operator<` is not transitive: for `a = (12, 2)`, `b = (14, 1)` and
`c = (12, 3)`, `a < b` and `b < c` are true while `a < c` is false. -/
theorem lt_chain_broken :
    EnvBits.lt (EnvBits.ctor 12 2) (EnvBits.ctor 14 1) = true ∧
    EnvBits.lt (EnvBits.ctor 14 1) (EnvBits.ctor 12 3) = true ∧
    EnvBits.lt (EnvBits.ctor 12 2) (EnvBits.ctor 12 3) = false := by
  decide

/-- C5. `operator<` is consistent with `operator==`: when `a == b`, neither
`a < b` nor `b < a` is true; in particular `a < a` is false. -/
theorem lt_false_of_eq (a b : EnvBits) (h : EnvBits.eq a b = true) :
    EnvBits.lt a b = false ∧ EnvBits.lt b a = false ∧ EnvBits.lt a a = false := by
  have hf : a.first = b.first := ((EnvBits.eq_eq_true_iff a b).mp h).1
  refine ⟨?_, ?_, ?_⟩ <;> simp [EnvBits.lt, hf]

/-- C5, at a concrete pair of equal values. -/
theorem lt_false_of_eq_witness :
    EnvBits.eq (EnvBits.ctor 6 1) (EnvBits.ctor 6 1) = true ∧
    EnvBits.lt (EnvBits.ctor 6 1) (EnvBits.ctor 6 1) = false :=
  ⟨by decide, (lt_false_of_eq (EnvBits.ctor 6 1) (EnvBits.ctor 6 1) (by decide)).1⟩

/-! ## Equality and hashing -/

/-- C6. `operator==` is true exactly when both accessors agree:
`a == b` if and only if `a.index() == b.index()` and `a.width() == b.width()`. -/
theorem eq_iff_index_width (a b : EnvBits) :
    EnvBits.eq a b = true ↔
      EnvBits.index a = EnvBits.index b ∧ EnvBits.width a = EnvBits.width b := by
  simp [EnvBits.eq, EnvBits.index, EnvBits.width]

/-- C7. `operator==` is an equivalence relation: it is reflexive, symmetric and
transitive on all `EnvBits` values. -/
theorem eq_equivalence :
    (∀ a : EnvBits, EnvBits.eq a a = true) ∧
    (∀ a b : EnvBits, EnvBits.eq a b = true → EnvBits.eq b a = true) ∧
    (∀ a b c : EnvBits,
      EnvBits.eq a b = true → EnvBits.eq b c = true → EnvBits.eq a c = true) := by
  refine ⟨?_, ?_, ?_⟩
  · intro a
    simp [EnvBits.eq]
  · intro a b hab
    rw [EnvBits.eq_eq_true_iff] at hab ⊢
    exact ⟨hab.1.symm, hab.2.symm⟩
  · intro a b c hab hbc
    rw [EnvBits.eq_eq_true_iff] at hab hbc ⊢
    exact ⟨hab.1.trans hbc.1, hab.2.trans hbc.2⟩

/-- C7, at concrete values: an `Eflags` bit and two separately built `EnvBits`
values, all at index 0 and width 1. -/
theorem eq_equivalence_witness :
    EnvBits.eq (EnvBits.ctor 0 1) (EnvBits.ctor 0 1) = true ∧
    EnvBits.eq (EnvBits.ctor 0 1) (Eflags.ctor 0 1).toEnvBits = true ∧
    EnvBits.eq (Eflags.ctor 0 1).toEnvBits (EnvBits.swap (EnvBits.ctor 7 1) (EnvBits.ctor 0 1)).1
      = true :=
  ⟨eq_equivalence.1 (EnvBits.ctor 0 1),
   eq_equivalence.2.1 (Eflags.ctor 0 1).toEnvBits (EnvBits.ctor 0 1) (by decide),
   eq_equivalence.2.2 (Eflags.ctor 0 1).toEnvBits (EnvBits.ctor 0 1)
     (EnvBits.swap (EnvBits.ctor 7 1) (EnvBits.ctor 0 1)).1 (by decide) (by decide)⟩

/-- C8. The hash is consistent with equality: when `a == b`, `a.hash()` equals
`b.hash()`, and `std::hash<EnvBits>` gives the same value on both. -/
theorem hash_eq_of_eq (a b : EnvBits) (h : EnvBits.eq a b = true) :
    EnvBits.hash a = EnvBits.hash b ∧ std.hash a = std.hash b := by
  obtain ⟨hf, hs⟩ := (EnvBits.eq_eq_true_iff a b).mp h
  simp [std.hash, EnvBits.hash, hf, hs]

/-- C8, at the pair of values `(13, 2)` built through two different variants. -/
theorem hash_eq_of_eq_witness :
    EnvBits.eq (Mxcsr.ctor 13 2).toEnvBits (FpuControl.ctor 13 2).toEnvBits = true ∧
    EnvBits.hash (Mxcsr.ctor 13 2).toEnvBits = EnvBits.hash (FpuControl.ctor 13 2).toEnvBits ∧
    std.hash (Mxcsr.ctor 13 2).toEnvBits = std.hash (FpuControl.ctor 13 2).toEnvBits :=
  ⟨by decide,
   hash_eq_of_eq (Mxcsr.ctor 13 2).toEnvBits (FpuControl.ctor 13 2).toEnvBits (by decide)⟩

/-! ## Comparison across variants

`f == m` for an `Eflags` value `f` and an `Mxcsr` value `m` resolves to the
inherited member `EnvBits::operator==(const EnvBits&)`: `f` is the object the
member is called on and `m` binds to the `const EnvBits&` parameter, both
through the public derived-to-base conversion. -/

/-- C9, as stated, fails: the `Eflags` value `(0, 1)` and the `Mxcsr` value
`(0, 1)` have the same index and the same width, and `operator==` returns true
on them. -/
theorem eflags_mxcsr_compare_equal :
    EnvBits.index (Eflags.ctor 0 1).toEnvBits = EnvBits.index (Mxcsr.ctor 0 1).toEnvBits ∧
    EnvBits.width (Eflags.ctor 0 1).toEnvBits = EnvBits.width (Mxcsr.ctor 0 1).toEnvBits ∧
    EnvBits.eq (Eflags.ctor 0 1).toEnvBits (Mxcsr.ctor 0 1).toEnvBits = true := by
  decide

/-- C9, amended. An `Eflags` value `f` and an `Mxcsr` value `m` with the same
index and the same width compare equal through the inherited `operator==`: the
comparison reads only the two members, and the variant is carried by the static
type alone. -/
theorem eq_across_variants (f : Eflags) (m : Mxcsr)
    (hi : EnvBits.index f.toEnvBits = EnvBits.index m.toEnvBits)
    (hw : EnvBits.width f.toEnvBits = EnvBits.width m.toEnvBits) :
    EnvBits.eq f.toEnvBits m.toEnvBits = true := by
  simp only [EnvBits.index, EnvBits.width] at hi hw
  simp [EnvBits.eq, hi, hw]

/-- C9 amended, at the `Eflags` value `(7, 1)` and the `Mxcsr` value `(7, 1)`. -/
theorem eq_across_variants_witness :
    EnvBits.index (Eflags.ctor 7 1).toEnvBits = EnvBits.index (Mxcsr.ctor 7 1).toEnvBits ∧
    EnvBits.width (Eflags.ctor 7 1).toEnvBits = EnvBits.width (Mxcsr.ctor 7 1).toEnvBits ∧
    EnvBits.eq (Eflags.ctor 7 1).toEnvBits (Mxcsr.ctor 7 1).toEnvBits = true :=
  ⟨by decide, by decide, eq_across_variants (Eflags.ctor 7 1) (Mxcsr.ctor 7 1) (by decide) (by decide)⟩

/-! ## Swap -/

/-- C10. `swap` exchanges the contents of the two instances: with `a = (i1, w1)`
and `b = (i2, w2)`, after `a.swap(b)` the object `a` has index `i2` and width
`w2` and the object `b` has index `i1` and width `w1`; `std::swap(a, b)` does the
same. -/
theorem swap_exchanges (i1 w1 i2 w2 : Nat) :
    EnvBits.index (EnvBits.swap (EnvBits.ctor i1 w1) (EnvBits.ctor i2 w2)).1 = i2 ∧
    EnvBits.width (EnvBits.swap (EnvBits.ctor i1 w1) (EnvBits.ctor i2 w2)).1 = w2 ∧
    EnvBits.index (EnvBits.swap (EnvBits.ctor i1 w1) (EnvBits.ctor i2 w2)).2 = i1 ∧
    EnvBits.width (EnvBits.swap (EnvBits.ctor i1 w1) (EnvBits.ctor i2 w2)).2 = w1 ∧
    EnvBits.index (std.swap (EnvBits.ctor i1 w1) (EnvBits.ctor i2 w2)).1 = i2 ∧
    EnvBits.width (std.swap (EnvBits.ctor i1 w1) (EnvBits.ctor i2 w2)).1 = w2 ∧
    EnvBits.index (std.swap (EnvBits.ctor i1 w1) (EnvBits.ctor i2 w2)).2 = i1 ∧
    EnvBits.width (std.swap (EnvBits.ctor i1 w1) (EnvBits.ctor i2 w2)).2 = w1 := by
  simp [std.swap, EnvBits.swap, EnvBits.ctor, EnvBits.index, EnvBits.width]

/-! ## Construction and accessors -/

/-- C11, as stated, fails: the constructors accept a width of zero.  The values
built as `(0, 0)` by `EnvBits` and by each of the five variants have `width()`
equal to 0, which is not at least 1. -/
theorem ctor_width_zero :
    EnvBits.width (EnvBits.ctor 0 0) = 0 ∧
    EnvBits.width (Eflags.ctor 0 0).toEnvBits = 0 ∧
    EnvBits.width (FpuControl.ctor 0 0).toEnvBits = 0 ∧
    EnvBits.width (FpuStatus.ctor 0 0).toEnvBits = 0 ∧
    EnvBits.width (FpuTag.ctor 0 0).toEnvBits = 0 ∧
    EnvBits.width (Mxcsr.ctor 0 0).toEnvBits = 0 ∧
    ¬ (1 ≤ EnvBits.width (EnvBits.ctor 0 0)) := by
  decide

/-- C11, amended. The constructors store the width they are given and check
nothing: for every `i` and `w`, the value built by `EnvBits(i, w)` and by each
variant constructor has `width() ≥ 1` exactly when `w ≥ 1`. -/
theorem ctor_width_pos_iff (i w : Nat) :
    (1 ≤ EnvBits.width (EnvBits.ctor i w) ↔ 1 ≤ w) ∧
    (1 ≤ EnvBits.width (Eflags.ctor i w).toEnvBits ↔ 1 ≤ w) ∧
    (1 ≤ EnvBits.width (FpuControl.ctor i w).toEnvBits ↔ 1 ≤ w) ∧
    (1 ≤ EnvBits.width (FpuStatus.ctor i w).toEnvBits ↔ 1 ≤ w) ∧
    (1 ≤ EnvBits.width (FpuTag.ctor i w).toEnvBits ↔ 1 ≤ w) ∧
    (1 ≤ EnvBits.width (Mxcsr.ctor i w).toEnvBits ↔ 1 ≤ w) := by
  refine ⟨?_, ?_, ?_, ?_, ?_, ?_⟩ <;> exact Iff.rfl

/-- C12. The accessors return what the instance was constructed with: the value
constructed as `(i, w)` has `index() == i` and `width() == w`, for `EnvBits` and
for each of the five variants. -/
theorem accessors_of_ctor (i w : Nat) :
    (EnvBits.index (EnvBits.ctor i w) = i ∧ EnvBits.width (EnvBits.ctor i w) = w) ∧
    (EnvBits.index (Eflags.ctor i w).toEnvBits = i ∧
      EnvBits.width (Eflags.ctor i w).toEnvBits = w) ∧
    (EnvBits.index (FpuControl.ctor i w).toEnvBits = i ∧
      EnvBits.width (FpuControl.ctor i w).toEnvBits = w) ∧
    (EnvBits.index (FpuStatus.ctor i w).toEnvBits = i ∧
      EnvBits.width (FpuStatus.ctor i w).toEnvBits = w) ∧
    (EnvBits.index (FpuTag.ctor i w).toEnvBits = i ∧
      EnvBits.width (FpuTag.ctor i w).toEnvBits = w) ∧
    (EnvBits.index (Mxcsr.ctor i w).toEnvBits = i ∧
      EnvBits.width (Mxcsr.ctor i w).toEnvBits = w) := by
  refine ⟨⟨?_, ?_⟩, ⟨?_, ?_⟩, ⟨?_, ?_⟩, ⟨?_, ?_⟩, ⟨?_, ?_⟩, ⟨?_, ?_⟩⟩ <;> rfl

/-! ## More on hashing, inequality and swap -/

/-- C15. `hash()` is the bitwise exclusive or of `index()` and `width()`, and no
overflow or truncation is involved: when both fields fit in `n` bits (`n = 64`
for `size_t`), so does the hash, hence reducing it modulo `2 ^ n` changes
nothing. -/
theorem hash_is_xor (a : EnvBits) (n : Nat)
    (hi : EnvBits.index a < 2 ^ n) (hw : EnvBits.width a < 2 ^ n) :
    EnvBits.hash a = EnvBits.index a ^^^ EnvBits.width a ∧
    EnvBits.hash a < 2 ^ n ∧
    EnvBits.hash a % 2 ^ n = EnvBits.index a ^^^ EnvBits.width a := by
  have hlt : EnvBits.hash a < 2 ^ n := Nat.xor_lt_two_pow hi hw
  exact ⟨rfl, hlt, Nat.mod_eq_of_lt hlt⟩

/-- C15, at the value `(13, 2)` with 64-bit `size_t`: the hash is `13 ^ 2 = 15`. -/
theorem hash_is_xor_witness :
    EnvBits.index (EnvBits.ctor 13 2) < 2 ^ 64 ∧ EnvBits.width (EnvBits.ctor 13 2) < 2 ^ 64 ∧
    EnvBits.hash (EnvBits.ctor 13 2) = 15 ∧
    EnvBits.hash (EnvBits.ctor 13 2) < 2 ^ 64 :=
  ⟨by decide, by decide,
   (hash_is_xor (EnvBits.ctor 13 2) 64 (by decide) (by decide)).1.trans (by decide),
   (hash_is_xor (EnvBits.ctor 13 2) 64 (by decide) (by decide)).2.1⟩

/-- C16. `operator!=` is the exact negation of `operator==`: `a != b` is true if
and only if `a == b` is false, that is if and only if the indexes differ or the
widths differ. -/
theorem ne_iff_not_eq (a b : EnvBits) :
    (EnvBits.ne a b = true ↔ EnvBits.eq a b = false) ∧
    (EnvBits.ne a b = true ↔
      EnvBits.index a ≠ EnvBits.index b ∨ EnvBits.width a ≠ EnvBits.width b) := by
  constructor
  · simp [EnvBits.ne]
  · simp only [EnvBits.ne, EnvBits.eq, EnvBits.index, EnvBits.width]
    by_cases h1 : a.first = b.first <;> by_cases h2 : a.second = b.second <;> simp [h1, h2]

/-- C17. `swap` is an involution and symmetric in its arguments: swapping `a`
and `b` twice restores both, and `a.swap(b)` leaves `a` and `b` in the same
state as `b.swap(a)` does. -/
theorem swap_involutive_symmetric (a b : EnvBits) :
    EnvBits.swap (EnvBits.swap a b).1 (EnvBits.swap a b).2 = (a, b) ∧
    (EnvBits.swap a b).1 = (EnvBits.swap b a).2 ∧
    (EnvBits.swap a b).2 = (EnvBits.swap b a).1 := by
  refine ⟨?_, ?_, ?_⟩ <;> rfl

/-- C18. The hash does not distinguish the roles of index and width: `(i, w)`
and `(w, i)` have the same hash, every value whose index equals its width hashes
to 0, and there are unequal values (`(1, 2)` and `(2, 1)`) with the same hash. -/
theorem hash_symmetric_collides :
    (∀ i w : Nat, EnvBits.hash (EnvBits.ctor i w) = EnvBits.hash (EnvBits.ctor w i)) ∧
    (∀ a : EnvBits, EnvBits.index a = EnvBits.width a → EnvBits.hash a = 0) ∧
    (∃ a b : EnvBits, EnvBits.ne a b = true ∧ EnvBits.hash a = EnvBits.hash b) := by
  refine ⟨?_, ?_, ?_⟩
  · intro i w
    simp only [EnvBits.hash, EnvBits.ctor]
    exact Nat.xor_comm i w
  · intro a h
    simp only [EnvBits.index, EnvBits.width] at h
    simp [EnvBits.hash, h]
  · exact ⟨EnvBits.ctor 1 2, EnvBits.ctor 2 1, by decide, by decide⟩

/-- C18, at concrete values: `(12, 2)` and `(2, 12)` hash alike, and `(5, 5)`
hashes to 0. -/
theorem hash_symmetric_collides_witness :
    EnvBits.hash (EnvBits.ctor 12 2) = EnvBits.hash (EnvBits.ctor 2 12) ∧
    EnvBits.hash (EnvBits.ctor 5 5) = 0 :=
  ⟨hash_symmetric_collides.1 12 2, hash_symmetric_collides.2.1 (EnvBits.ctor 5 5) (by decide)⟩

/-! ## Textual round trip and rejection -/

/-- `operator==` holds exactly between identical values. -/
theorem EnvBits.eq_eq_true_iff_eq (a b : EnvBits) : EnvBits.eq a b = true ↔ a = b := by
  cases a
  cases b
  simp [EnvBits.eq]

/-- A token that names an entry of a vocabulary without repeated names is mapped
to that entry's field. -/
theorem fieldOfName_of_mem {α : Type} (vocab : List (String × α))
    (h : (vocab.map Prod.fst).Nodup) (n : String) (f : α) (hm : (n, f) ∈ vocab) :
    fieldOfName vocab n = some f := by
  induction vocab with
  | nil => simp at hm
  | cons e rest ih =>
    obtain ⟨n0, f0⟩ := e
    rw [List.map_cons, List.nodup_cons] at h
    rcases List.mem_cons.mp hm with heq | hin
    · cases heq
      simp [fieldOfName]
    · have hne : n ≠ n0 := by
        intro hc
        have hmem : Prod.fst (n, f) ∈ rest.map Prod.fst := List.mem_map_of_mem Prod.fst hin
        rw [show Prod.fst (n, f) = n0 from hc] at hmem
        exact h.1 hmem
      simp only [fieldOfName, hne, if_false]
      exact ih h.2 hin

/-- A token that names no entry of a vocabulary is mapped to no field. -/
theorem fieldOfName_eq_none {α : Type} (vocab : List (String × α)) (t : String)
    (h : ∀ e ∈ vocab, e.1 ≠ t) : fieldOfName vocab t = none := by
  induction vocab with
  | nil => rfl
  | cons e rest ih =>
    obtain ⟨n0, f0⟩ := e
    have hne : t ≠ n0 := fun hc => h (n0, f0) (List.mem_cons_self _ _) hc.symm
    simp only [fieldOfName, hne, if_false]
    exact ih (fun e he => h e (List.mem_cons_of_mem _ he))

/-- The bit-field of an entry of a vocabulary without repeated bit-fields is
mapped to that entry's name. -/
theorem nameOfField_of_mem {α : Type} (bits : α → EnvBits) (vocab : List (String × α))
    (h : (vocab.map (fun e => bits e.2)).Nodup) (n : String) (f : α) (hm : (n, f) ∈ vocab) :
    nameOfField bits vocab (bits f) = some n := by
  induction vocab with
  | nil => simp at hm
  | cons e rest ih =>
    obtain ⟨n0, f0⟩ := e
    rw [List.map_cons, List.nodup_cons] at h
    rcases List.mem_cons.mp hm with heq | hin
    · cases heq
      simp [nameOfField, (EnvBits.eq_eq_true_iff_eq _ _).mpr rfl]
    · have hne : ¬ (EnvBits.eq (bits f) (bits f0) = true) := by
        intro hc
        rw [EnvBits.eq_eq_true_iff_eq] at hc
        have hmem : bits f ∈ rest.map (fun e => bits e.2) :=
          List.mem_map_of_mem (fun e => bits e.2) hin
        rw [hc] at hmem
        exact h.1 hmem
      simp only [nameOfField, hne, if_false]
      exact ih h.2 hin

/-- The round-trip law holds for reading and writing over a bijective vocabulary. -/
theorem roundTrip_with {α : Type} (bits : α → EnvBits) (vocab : List (String × α))
    (hb : bijective bits vocab) :
    RoundTrip (read_text_with vocab) (write_text_with bits vocab) bits vocab := by
  intro n f hm fresh
  have hname := nameOfField_of_mem bits vocab hb.2 n f hm
  have hfield := fieldOfName_of_mem vocab hb.1 n f hm
  simp [read_text_with, write_text_with, hname, hfield,
    (EnvBits.eq_eq_true_iff_eq (bits f) (bits f)).mpr rfl]

/-- Reading over any vocabulary rejects a token that names none of its entries. -/
theorem rejectsUnknown_with {α : Type} (bits : α → EnvBits) (vocab : List (String × α)) :
    RejectsUnknown (read_text_with vocab) bits vocab := by
  intro t ht self rest fl
  have hnone := fieldOfName_eq_none vocab t ht
  cases fl <;> simp [read_text_with, hnone]

/-- C13. Text round trip over a catalog whose vocabularies are bijective: for
each of the five variants and every catalog field `f`, `write_text` of `f`
followed by `read_text` of the written text into any instance gives an instance
equal to `f`, and `read_text` of a canonical name followed by `write_text`
reproduces that name exactly; the same holds through `operator<<` and
`operator>>`. -/
theorem text_round_trip (c : Constants) (hc : c.bijective) :
    RoundTrip (Eflags.read_text c) (Eflags.write_text c) Eflags.toEnvBits c.eflags ∧
    RoundTrip (FpuControl.read_text c) (FpuControl.write_text c) FpuControl.toEnvBits c.fpu_control ∧
    RoundTrip (FpuStatus.read_text c) (FpuStatus.write_text c) FpuStatus.toEnvBits c.fpu_status ∧
    RoundTrip (FpuTag.read_text c) (FpuTag.write_text c) FpuTag.toEnvBits c.fpu_tag ∧
    RoundTrip (Mxcsr.read_text c) (Mxcsr.write_text c) Mxcsr.toEnvBits c.mxcsr ∧
    RoundTrip (fun x is => std.extract_Eflags c is x) (fun x os => std.insert_Eflags c os x)
      Eflags.toEnvBits c.eflags ∧
    RoundTrip (fun x is => std.extract_FpuControl c is x) (fun x os => std.insert_FpuControl c os x)
      FpuControl.toEnvBits c.fpu_control ∧
    RoundTrip (fun x is => std.extract_FpuStatus c is x) (fun x os => std.insert_FpuStatus c os x)
      FpuStatus.toEnvBits c.fpu_status ∧
    RoundTrip (fun x is => std.extract_FpuTag c is x) (fun x os => std.insert_FpuTag c os x)
      FpuTag.toEnvBits c.fpu_tag ∧
    RoundTrip (fun x is => std.extract_Mxcsr c is x) (fun x os => std.insert_Mxcsr c os x)
      Mxcsr.toEnvBits c.mxcsr := by
  obtain ⟨h1, h2, h3, h4, h5⟩ := hc
  exact ⟨roundTrip_with _ _ h1, roundTrip_with _ _ h2, roundTrip_with _ _ h3,
    roundTrip_with _ _ h4, roundTrip_with _ _ h5,
    roundTrip_with _ _ h1, roundTrip_with _ _ h2, roundTrip_with _ _ h3,
    roundTrip_with _ _ h4, roundTrip_with _ _ h5⟩

/-- C13, on the sample catalog: the EFLAGS field `(6, 1)` is written as `zf` and
read back into an instance holding `(0, 1)`, which then equals `(6, 1)`; the MXCSR
name `fz` is read and written back as `fz`. -/
theorem text_round_trip_witness :
    sampleConstants.bijective ∧
    EnvBits.eq
      (Eflags.read_text sampleConstants (Eflags.ctor 0 1)
        { tokens := (Eflags.write_text sampleConstants (Eflags.ctor 6 1)
                      { written := [], failed := false }).written,
          failed := false }).1.toEnvBits
      (Eflags.ctor 6 1).toEnvBits = true ∧
    Mxcsr.write_text sampleConstants
      (Mxcsr.read_text sampleConstants (Mxcsr.ctor 13 2) { tokens := ["fz"], failed := false }).1
      { written := [], failed := false } = { written := ["fz"], failed := false } :=
  have hb : sampleConstants.bijective :=
    ⟨⟨by decide, by decide⟩, ⟨by decide, by decide⟩, ⟨by decide, by decide⟩,
     ⟨by decide, by decide⟩, ⟨by decide, by decide⟩⟩
  ⟨hb,
   ((text_round_trip sampleConstants hb).1 "zf" (Eflags.ctor 6 1) (by decide)
      (Eflags.ctor 0 1)).2.2.1,
   ((text_round_trip sampleConstants hb).2.2.2.2.1 "fz" (Mxcsr.ctor 15 1) (by decide)
      (Mxcsr.ctor 13 2)).2.2.2.2⟩

/-- C14. `read_text` rejects unknown tokens atomically: for each of the five
variants and every token that is not a canonical name of the variant, reading
leaves the stream in its failure state and leaves the index and the width of the
instance unchanged; the same holds through `operator>>`. -/
theorem read_text_rejects_unknown (c : Constants) :
    RejectsUnknown (Eflags.read_text c) Eflags.toEnvBits c.eflags ∧
    RejectsUnknown (FpuControl.read_text c) FpuControl.toEnvBits c.fpu_control ∧
    RejectsUnknown (FpuStatus.read_text c) FpuStatus.toEnvBits c.fpu_status ∧
    RejectsUnknown (FpuTag.read_text c) FpuTag.toEnvBits c.fpu_tag ∧
    RejectsUnknown (Mxcsr.read_text c) Mxcsr.toEnvBits c.mxcsr ∧
    RejectsUnknown (fun x is => std.extract_Eflags c is x) Eflags.toEnvBits c.eflags ∧
    RejectsUnknown (fun x is => std.extract_FpuControl c is x) FpuControl.toEnvBits c.fpu_control ∧
    RejectsUnknown (fun x is => std.extract_FpuStatus c is x) FpuStatus.toEnvBits c.fpu_status ∧
    RejectsUnknown (fun x is => std.extract_FpuTag c is x) FpuTag.toEnvBits c.fpu_tag ∧
    RejectsUnknown (fun x is => std.extract_Mxcsr c is x) Mxcsr.toEnvBits c.mxcsr :=
  ⟨rejectsUnknown_with _ _, rejectsUnknown_with _ _, rejectsUnknown_with _ _,
   rejectsUnknown_with _ _, rejectsUnknown_with _ _,
   rejectsUnknown_with _ _, rejectsUnknown_with _ _, rejectsUnknown_with _ _,
   rejectsUnknown_with _ _, rejectsUnknown_with _ _⟩

/-- C14, on the sample catalog: reading the token `not_a_flag` into the EFLAGS
instance `(0, 1)` fails the stream and leaves the instance at index 0, width 1. -/
theorem read_text_rejects_unknown_witness :
    (Eflags.read_text sampleConstants (Eflags.ctor 0 1)
      { tokens := ["not_a_flag", "cf"], failed := false }).2.failed = true ∧
    EnvBits.index (Eflags.read_text sampleConstants (Eflags.ctor 0 1)
      { tokens := ["not_a_flag", "cf"], failed := false }).1.toEnvBits = 0 ∧
    EnvBits.width (Eflags.read_text sampleConstants (Eflags.ctor 0 1)
      { tokens := ["not_a_flag", "cf"], failed := false }).1.toEnvBits = 1 :=
  (read_text_rejects_unknown sampleConstants).1 "not_a_flag" (by decide)
    (Eflags.ctor 0 1) ["cf"] false

end x64asm
